import Mathlib

/-!
Verification development for `bagitbb.py` (bagit, but better).

This file gives a shallow embedding of the integrity-verified directory
transfer engine of `src/bagitbb.py` and proves/refutes the frozen claims
about it.

Modelling conventions:
* A filesystem is a finite list of (absolute path, file content) pairs.
  Paths are plain strings with `/` as separator (the POSIX value of
  `os.sep`); directories exist implicitly as proper prefixes of file
  paths, so empty directories are not representable (none of the claims
  depends on them).  File sizes (`os.stat(...).st_size`) are modelled as
  the length of the content string.
* The cryptographic digests (`hashlib.md5` / `hashlib.sha256`) are
  external to the repository; they are modelled as uninterpreted
  function parameters `md5 sha256 : String → String`.
* Python exceptions are modelled with `Option`/sum results: a raised
  `ManifestError` becomes `some e`, silent success becomes `none`.
  `Manifest.compare` only re-raises what `Manifest.get_exception`
  raises, so the embedding works with `get_exception` directly.
* The external bagit library's `Bag` object is modelled as a record of
  the fields `bagitbb` reads from it (`path`, `entries`, `algorithms`)
  plus a boolean oracle `valid` standing for the outcome of
  `bag.validate(...)` (the Packaging Library collaborator in the spec).
-/

/-! ## String helpers (Python `str`/`os.path` operations) -/

/-- One step of Python `str.replace(pat, '')` scanning, with explicit fuel.
Each recursive call consumes at least one character of the scanned list, so
fuel equal to the list length suffices. -/
def replaceAllAux (pat : List Char) : Nat → List Char → List Char
  | 0, l => l
  | _ + 1, [] => []
  | fuel + 1, c :: rest =>
    if pat.isPrefixOf (c :: rest) && decide (0 < pat.length) then
      replaceAllAux pat fuel (rest.drop (pat.length - 1))
    else
      c :: replaceAllAux pat fuel rest

/-- Python `s.replace(pat, '')`: removes every (left-to-right,
non-overlapping) occurrence of `pat`, not only a leading one. -/
def replaceAll (pat l : List Char) : List Char :=
  replaceAllAux pat l.length l

/-- Python `s.replace(pat, '')` on `String`s. -/
def strReplaceAll (pat s : String) : String :=
  String.mk (replaceAll pat.toList s.toList)

/-- Python `s.replace(pat, '', 1)`: removes only the first occurrence. -/
def replaceFirst (pat : List Char) : List Char → List Char
  | [] => []
  | c :: rest =>
    if pat.isPrefixOf (c :: rest) then (c :: rest).drop pat.length
    else c :: replaceFirst pat rest

/-- `String` version of `replaceFirst`. -/
def strReplaceFirst (pat s : String) : String :=
  String.mk (replaceFirst pat.toList s.toList)

/-- Python substring test `pat in s` on character lists. -/
def hasSubList (pat : List Char) : List Char → Bool
  | [] => pat.isEmpty
  | c :: rest => pat.isPrefixOf (c :: rest) || hasSubList pat rest

/-- Python substring test `pat in s` for strings. -/
def strSubstr (pat s : String) : Bool :=
  hasSubList pat.toList s.toList

/-- Python `s.startswith(p)` (string prefix test, on the char lists). -/
def strPrefixOf (p s : String) : Bool :=
  p.toList.isPrefixOf s.toList

/-- `os.path.dirname` for POSIX paths: everything before the final `/`,
with trailing slashes stripped unless the head is made of slashes only. -/
def dirname (p : String) : String :=
  let rev := p.toList.reverse
  let base := rev.takeWhile (fun c => c ≠ '/')
  let headRev := rev.drop base.length
  if headRev.all (fun c => c = '/') then String.mk headRev.reverse
  else String.mk (headRev.dropWhile (fun c => c = '/')).reverse

/-- `os.path.basename` for POSIX paths: everything after the final `/`. -/
def basename (p : String) : String :=
  String.mk (p.toList.reverse.takeWhile (fun c => c ≠ '/')).reverse

/-! ## Filesystem model -/

/-- A filesystem: a list of (absolute file path, content) pairs. -/
abbrev FS := List (String × String)

/-- Content of the file at `p`, if present (`open(p).read()`). -/
def readFile (fs : FS) (p : String) : Option String :=
  (fs.find? (fun f => f.1 = p)).map (fun f => f.2)

/-- `os.path.isfile`: a regular file exists at `p`. -/
def isFile (fs : FS) (p : String) : Bool :=
  fs.any (fun f => f.1 = p)

/-- `os.path.isdir`: some file lives strictly below `p`
(empty directories are not representable in this model). -/
def isDir (fs : FS) (p : String) : Bool :=
  fs.any (fun f => strPrefixOf (p ++ "/") f.1)

/-- All files strictly beneath directory `root` (`Path(root).rglob('*')`
restricted to regular files). -/
def filesUnder (fs : FS) (root : String) : FS :=
  fs.filter (fun f => strPrefixOf (root ++ "/") f.1)

/-- The path of `p` relative to directory `root`
(meaningful when `root ++ "/"` is a prefix of `p`). -/
def relUnder (root p : String) : String :=
  String.mk (p.toList.drop (root.length + 1))

/-- `p` is a regular file directly inside directory `dir`
(`Path(dir).glob('*')` entries that are files). -/
def isDirectChild (fs : FS) (dir p : String) : Bool :=
  isFile fs p && strPrefixOf (dir ++ "/") p && !((relUnder dir p).toList.contains '/')

/-- `shutil.copytree(src, dest, dirs_exist_ok=True)` over the model, with
snapshot semantics: every file beneath `src` at call time reappears at the
corresponding path beneath `dest`, overwriting colliding destination files. -/
def copyTree (fs : FS) (src dest : String) : FS :=
  let copied := (filesUnder fs src).map (fun f => (dest ++ "/" ++ relUnder src f.1, f.2))
  fs.filter (fun f => !(copied.any (fun c => c.1 = f.1))) ++ copied

/-- `copy_files(src, dest, 'move')`: `shutil.move` each regular file that is
a direct child of `src` into the directory `dest`. -/
def flatMove (fs : FS) (src dest : String) : FS :=
  fs.map (fun f =>
    if isDirectChild fs src f.1 then (dest ++ "/" ++ relUnder src f.1, f.2) else f)

/-- `copy_files(src, dest, 'flat')`: `shutil.copy2` each regular file that
is a direct child of `src` into the directory `dest`. -/
def flatCopy (fs : FS) (src dest : String) : FS :=
  let copied := (fs.filter (fun f => isDirectChild fs src f.1)).map
    (fun f => (dest ++ "/" ++ relUnder src f.1, f.2))
  fs.filter (fun f => !(copied.any (fun c => c.1 = f.1))) ++ copied

/-- `copy_files(src, dest, copy_type)` from `bagitbb.py` (the `'file'`
branch copies one file into the directory `dest`, as in its call sites). -/
def copy_files (fs : FS) (src dest : String) (copy_type : String) : FS :=
  if copy_type = "recursive" then copyTree fs src dest
  else if copy_type = "file" then
    match readFile fs src with
    | some c => (fs.filter (fun f => f.1 ≠ dest ++ "/" ++ basename src)) ++
        [(dest ++ "/" ++ basename src, c)]
    | none => fs
  else if copy_type = "flat" then flatCopy fs src dest
  else if copy_type = "move" then flatMove fs src dest
  else fs

/-! ## Checksum manifests (`class Manifest` and friends) -/

/-- The `ManifestError` exceptions raised by `bagitbb.py`, identified by
their message: `'Number of copied files do not match source'`,
`'Checksum mismatch'`, and the aggregate message of `fast_compare`.
None of them carries a path. -/
inductive ManifestError where
  | countMismatch
  | checksumMismatch
  | aggregateMismatch
deriving DecidableEq, Repr

/-- A checksum manifest: a list of `(path, checksum)` tuples. -/
abbrev Manifest := List (String × String)

/-- Code-point lexicographic `<=` on character lists: the order Python uses
to compare strings. -/
def lexLeCh : List Char → List Char → Bool
  | [], _ => true
  | _ :: _, [] => false
  | a :: s, b :: t =>
    if a < b then true
    else if b < a then false
    else lexLeCh s t

/-- Python string comparison `a ≤ b` (code-point lexicographic). -/
def strLe (a b : String) : Bool :=
  lexLeCh a.toList b.toList

theorem lexLeCh_refl : ∀ a : List Char, lexLeCh a a = true
  | [] => rfl
  | _ :: s => by simp [lexLeCh, lexLeCh_refl s]

theorem lexLeCh_total : ∀ a b : List Char, lexLeCh a b = true ∨ lexLeCh b a = true
  | [], _ => Or.inl rfl
  | _ :: _, [] => Or.inr rfl
  | a :: s, b :: t => by
    rcases lt_trichotomy a b with h | h | h
    · exact Or.inl (by simp [lexLeCh, h])
    · subst h
      rcases lexLeCh_total s t with h2 | h2
      · exact Or.inl (by simp [lexLeCh, h2])
      · exact Or.inr (by simp [lexLeCh, h2])
    · exact Or.inr (by simp [lexLeCh, h])

theorem lexLeCh_trans : ∀ {a b c : List Char},
    lexLeCh a b = true → lexLeCh b c = true → lexLeCh a c = true := by
  intro a
  induction a with
  | nil => intro b c _ _; rfl
  | cons x s ih =>
    intro b c hab hbc
    cases b with
    | nil => simp [lexLeCh] at hab
    | cons y t =>
      cases c with
      | nil => simp [lexLeCh] at hbc
      | cons z u =>
        rcases lt_trichotomy x y with hxy | hxy | hxy
        · rcases lt_trichotomy y z with hyz | hyz | hyz
          · simp [lexLeCh, lt_trans hxy hyz]
          · subst hyz; simp [lexLeCh, hxy]
          · simp [lexLeCh, lt_asymm hyz, hyz] at hbc
        · subst hxy
          simp only [lexLeCh, lt_self_iff_false, if_false] at hab
          rcases lt_trichotomy x z with hyz | hyz | hyz
          · simp [lexLeCh, hyz]
          · subst hyz
            simp only [lexLeCh, lt_self_iff_false, if_false] at hbc ⊢
            exact ih hab hbc
          · simp [lexLeCh, lt_asymm hyz, hyz] at hbc
        · simp [lexLeCh, lt_asymm hxy, hxy] at hab

theorem lexLeCh_antisymm : ∀ {a b : List Char},
    lexLeCh a b = true → lexLeCh b a = true → a = b := by
  intro a
  induction a with
  | nil =>
    intro b _ h2
    cases b with
    | nil => rfl
    | cons y t => simp [lexLeCh] at h2
  | cons x s ih =>
    intro b h1 h2
    cases b with
    | nil => simp [lexLeCh] at h1
    | cons y t =>
      rcases lt_trichotomy x y with h | h | h
      · simp [lexLeCh, lt_asymm h, h] at h2
      · subst h
        simp only [lexLeCh, lt_self_iff_false, if_false] at h1 h2
        exact congrArg (List.cons x) (ih h1 h2)
      · simp [lexLeCh, lt_asymm h, h] at h1

theorem strLe_total (a b : String) : strLe a b = true ∨ strLe b a = true :=
  lexLeCh_total _ _

theorem strLe_trans {a b c : String} :
    strLe a b = true → strLe b c = true → strLe a c = true :=
  lexLeCh_trans

theorem strLe_antisymm {a b : String} (h1 : strLe a b = true)
    (h2 : strLe b a = true) : a = b := by
  cases a
  cases b
  exact congrArg String.mk (lexLeCh_antisymm h1 h2)

/-- Python tuple `<=` on `(path, checksum)` pairs of strings: compare the
paths first (code-point lexicographic), then the checksums. -/
def manifestLE (x y : String × String) : Prop :=
  (if x.1 = y.1 then strLe x.2 y.2 else strLe x.1 y.1) = true

instance : DecidableRel manifestLE := fun x y => by
  unfold manifestLE; infer_instance

instance : IsTotal (String × String) manifestLE where
  total x y := by
    unfold manifestLE
    by_cases h : x.1 = y.1
    · rw [if_pos h, if_pos h.symm]
      exact strLe_total x.2 y.2
    · rw [if_neg h, if_neg (fun h2 => h h2.symm)]
      exact strLe_total x.1 y.1

instance : IsTrans (String × String) manifestLE where
  trans x y z hxy hyz := by
    unfold manifestLE at *
    by_cases h1 : x.1 = y.1 <;> by_cases h2 : y.1 = z.1
    · rw [if_pos h1] at hxy
      rw [if_pos h2] at hyz
      rw [if_pos (h1.trans h2)]
      exact strLe_trans hxy hyz
    · rw [if_neg (fun h3 => h2 (h1.symm.trans h3)), h1]
      rw [if_neg h2] at hyz
      exact hyz
    · rw [if_neg (fun h3 => h1 (h3.trans h2.symm)), ← h2]
      rw [if_neg h1] at hxy
      exact hxy
    · rw [if_neg h1] at hxy
      rw [if_neg h2] at hyz
      by_cases h3 : x.1 = z.1
      · have hzx : strLe y.1 x.1 = true := by rw [h3]; exact hyz
        exact absurd (strLe_antisymm hxy hzx) h1
      · rw [if_neg h3]
        exact strLe_trans hxy hyz

instance : IsAntisymm (String × String) manifestLE where
  antisymm x y hxy hyx := by
    unfold manifestLE at hxy hyx
    by_cases h : x.1 = y.1
    · rw [if_pos h] at hxy
      rw [if_pos h.symm] at hyx
      exact Prod.ext h (strLe_antisymm hxy hyx)
    · rw [if_neg h] at hxy
      rw [if_neg (fun h2 => h h2.symm)] at hyx
      exact absurd (strLe_antisymm hxy hyx) h

/-- Python `sorted` on a list of `(path, checksum)` tuples. -/
def sortManifest (l : Manifest) : Manifest :=
  List.insertionSort manifestLE l

/-- `Manifest.get_file_list`: if `target` is a directory, every regular
file beneath it whose absolute path does not contain any entry of
`exclude` as a substring; otherwise the single entry `target`. -/
def get_file_list (fs : FS) (target : String) (exclude : List String) : List String :=
  if isDir fs target then
    ((filesUnder fs target).map (fun f => f.1)).filter
      (fun f => !(exclude.any (fun p => strSubstr p f)))
  else [target]

/-- `Manifest.prune_filenames`: `f.replace(os.path.dirname(target) + os.sep, '')`
applied to every listed file.  Note this is Python `str.replace`, which
removes every occurrence of the pattern, not only the leading one. -/
def prune_filenames (file_list : List String) (target : String) : List String :=
  file_list.map (fun f => strReplaceAll (dirname target ++ "/") f)

/-- `Manifest.get_hash` applied to a content string: selects the digest
function by algorithm name.  For any algorithm other than `'md5'` and
`'sha256'` the Python code falls through both branches and hits an
unbound local variable (`NameError`), modelled as `none`. -/
def get_hash (md5 sha256 : String → String) (alg content : String) : Option String :=
  if alg = "md5" then some (md5 content)
  else if alg = "sha256" then some (sha256 content)
  else none

/-- `Manifest.get_hash` on a file path: read the file, then hash it. -/
def get_hash_file (md5 sha256 : String → String) (alg : String) (fs : FS)
    (filename : String) : Option String :=
  (readFile fs filename).bind (get_hash md5 sha256 alg)

/-- Collect a list of optional results, failing if any failed. -/
def seqOption : List (Option α) → Option (List α)
  | [] => some []
  | o :: rest =>
    match o, seqOption rest with
    | some a, some l => some (a :: l)
    | _, _ => none

/-- `Manifest.get_hash_list`: `pool.map(self.get_hash, file_list)`
(`multiprocessing.Pool.map` preserves input order). -/
def get_hash_list (md5 sha256 : String → String) (alg : String) (fs : FS)
    (file_list : List String) : Option (List String) :=
  seqOption (file_list.map (get_hash_file md5 sha256 alg fs))

/-- `Manifest.get_manifest`: zip the (pruned) file list with the hash
list and sort the resulting tuples. -/
def get_manifest (file_list hash_list : List String) : Manifest :=
  sortManifest (file_list.zip hash_list)

/-- `Manifest.create`: list files, prune their names, hash them, zip and
sort.  `none` models the `NameError` escaping from `get_hash` for an
unsupported algorithm (or a vanished file). -/
def Manifest.create (md5 sha256 : String → String) (alg : String) (fs : FS)
    (target : String) (exclude : List String) : Option Manifest :=
  let file_list := get_file_list fs target exclude
  let pruned := prune_filenames file_list target
  (get_hash_list md5 sha256 alg fs file_list).map (fun hashes => get_manifest pruned hashes)

/-- The digest-comparison loop of `Manifest.get_exception`:
`for x in range(len(target)): if self.manifest[x][1] != target[x][1]: raise`.
Only the checksum component (index `[1]`) of each tuple is examined;
the relative paths are never compared. -/
def digestLoop : Manifest → Manifest → Option ManifestError
  | e1 :: s, e2 :: t =>
    if e1.2 ≠ e2.2 then some ManifestError.checksumMismatch else digestLoop s t
  | _, _ => none

/-- `Manifest.get_exception self target`: count check first, then the
pairwise digest loop (the loop is index-based in Python; after the length
guard it is equivalent to this paired recursion). -/
def get_exception (self target : Manifest) : Option ManifestError :=
  if target.length ≠ self.length then some ManifestError.countMismatch
  else digestLoop self target

/-- `get_file_details`: (total byte size, file count) of `target`.
A directory is walked recursively with substring-based exclusion; a single
file is counted with no exclusion check; anything else yields `(0, 0)`.
(The Python `len(exclude) == 0` fast path is the same filter.) -/
def get_file_details (fs : FS) (target : String) (exclude : List String) : Nat × Nat :=
  if isDir fs target then
    let files := (filesUnder fs target).filter
      (fun f => !(exclude.any (fun p => strSubstr p f.1)))
    ((files.map (fun f => f.2.length)).sum, files.length)
  else if isFile fs target then (((readFile fs target).getD "").length, 1)
  else (0, 0)

/-- `fast_compare(indir, outdir, exclude)`: aggregate size/count check.
The exclusion list is passed only for `outdir`; the `indir` details are
always computed with no exclusions. -/
def fast_compare (fs : FS) (indir outdir : String) (exclude : List String) :
    Option ManifestError :=
  let i := get_file_details fs indir []
  let o := get_file_details fs outdir exclude
  if i.1 ≠ o.1 || i.2 ≠ o.2 then some ManifestError.aggregateMismatch else none

/-- The algorithm test of `validate_opts`: `alg != 'sha256' and alg != 'md5'`
raises `OptError`.  `true` means the option passes.  (The separate
in-place path check of `validate_opts` is not modelled.) -/
def validateOptsAlg (alg : String) : Bool :=
  !(alg ≠ "sha256" && alg ≠ "md5")

/-! ## Bags and the unbag pipeline (`class BetterBag`) -/

/-- The fields of the external `bagit.Bag` object that `bagitbb.py` reads:
the bag root `path`, the recorded manifest `entries` (paths relative to the
bag root such as `data/x`, paired with the digest for the bag's algorithm),
and `algorithms`.  `valid` is an oracle for the outcome of the external
`bag.validate(...)` call (the Packaging Library collaborator). -/
structure Bag where
  path : String
  entries : List (String × String)
  algorithms : List String
  valid : Bool

/-- `BetterBag.__init__` sets `self.alg = self.bag.algorithms[0]`. -/
def Bag.alg (b : Bag) : String :=
  b.algorithms.headD ""

/-- `BetterBag.read_bag_manifest`: keep the entries whose path starts with
`'data' + os.sep`, strip that first occurrence only (`replace(.., '', 1)`),
and sort the resulting tuples. -/
def read_bag_manifest (b : Bag) : Manifest :=
  sortManifest ((b.entries.filter (fun e => strPrefixOf "data/" e.1)).map
    (fun e => (strReplaceFirst "data/" e.1, e.2)))

/-- Result of a run of `BetterBag.unbag` in quiet mode. -/
inductive UnbagOutcome where
  | ok
  | validationFailed
  | hashError
  | manifestError (e : ManifestError)
deriving DecidableEq, Repr

/-- `BetterBag.unbag(outdir, inplace=..)` with `archivematica=False`,
`fast=False`, `make_unbag_file=False`, `copy_bag_files=False`, `quiet=True`,
following the source line by line:
1. `set_unbag_paths` (pure) — the unbag target is the bag root when in
   place, else `outdir/<bag name>`;
2. `validate_bag` — on failure `throw_error` raises and nothing has been
   written (`make_unbag_dirs` and everything later is unreached);
3. `make_unbag_dirs` — only creates empty directories (implicit in this
   model);
4. `read_bag_manifest` — the recorded manifest;
5. `setup_tmp_dir` — in place only: make `bag_path/<tmpName>` and
   flat-move the top-level metadata files into it.  The `data` directory
   itself is a directory, not a file, so it is not touched;
6. `copy_files(data_path, unbag_path, 'recursive')`;
7. build a fresh manifest of the unbag target, excluding (by substring)
   the temp dir and the data dir when in place, and compare it with the
   recorded one (`new_manifest.compare(old_manifest.manifest)`).
`tmpName` stands for the time-derived name `'tmp' + time.strftime(..)`. -/
def unbag (md5 sha256 : String → String) (b : Bag) (outdir tmpName : String)
    (inplace : Bool) (fs : FS) : UnbagOutcome × FS :=
  let unbagPath := if inplace then b.path else outdir ++ "/" ++ basename b.path
  if !b.valid then (UnbagOutcome.validationFailed, fs)
  else
    let oldM := read_bag_manifest b
    let dataPath := b.path ++ "/data"
    let tmpDir := b.path ++ "/" ++ tmpName
    let fs1 := if inplace then copy_files fs b.path tmpDir "move" else fs
    let fs2 := copy_files fs1 dataPath unbagPath "recursive"
    let exclude := if inplace then [tmpDir, dataPath] else ([] : List String)
    match Manifest.create md5 sha256 b.alg fs2 unbagPath exclude with
    | none => (UnbagOutcome.hashError, fs2)
    | some newM =>
      match get_exception newM oldM with
      | some e => (UnbagOutcome.manifestError e, fs2)
      | none => (UnbagOutcome.ok, fs2)

/-! ## Example data for the in-place unbag scenario -/

/-- Filesystem of a bag at `/h/bag` whose payload contains a subdirectory
itself named `data` (payload files `data/y` and `data/data/x`, plus two
top-level metadata files). -/
def innerDataFS : FS :=
  [("/h/bag/bagit.txt", "m1"), ("/h/bag/manifest-sha256.txt", "m2"),
   ("/h/bag/data/y", "Y"), ("/h/bag/data/data/x", "X")]

/-- The corresponding bag object: recorded entries for both payload files
(the digest stand-in is the raw content, matching `md5 := id` /
`sha256 := id` below), algorithm `sha256`, and internally valid. -/
def innerDataBag : Bag :=
  ⟨"/h/bag", [("data/y", "Y"), ("data/data/x", "X")], ["sha256"], true⟩

/-! ## Helper lemmas -/

/-- The digest loop of `get_exception` succeeds exactly when the zipped
manifests agree on every checksum component. -/
theorem digestLoop_eq (s t : Manifest) :
    digestLoop s t =
      if (s.zip t).any (fun pq => pq.1.2 != pq.2.2) then some ManifestError.checksumMismatch
      else none := by
  induction s generalizing t with
  | nil => cases t <;> simp [digestLoop]
  | cons a s ih =>
    cases t with
    | nil => simp [digestLoop]
    | cons b t =>
      simp only [digestLoop, List.zip_cons_cons, List.any_cons, ih]
      by_cases h : a.2 = b.2
      · rw [if_neg (show ¬a.2 ≠ b.2 from fun hn => hn h)]
        simp only [h, bne_self_eq_false, Bool.false_or]
      · simp [h]

/-- Sorting with the Python tuple order is a canonical form: permuted
inputs sort to the same list. -/
theorem sortManifest_perm_eq {l l' : Manifest} (h : l.Perm l') :
    sortManifest l = sortManifest l' :=
  List.eq_of_perm_of_sorted
    ((List.perm_insertionSort manifestLE l).trans
      (h.trans (List.perm_insertionSort manifestLE l').symm))
    (List.sorted_insertionSort manifestLE l)
    (List.sorted_insertionSort manifestLE l')

/-! ## Claims -/

/-- C1 (counterexample): two sorted manifests of equal length that differ
at position 0 in `relativePath` (with equal digests) make
`Manifest.get_exception` succeed silently, although the claim requires a
fixity-mismatch failure naming the differing relative path.  The code
compares only the checksum component of each tuple and its error carries
no path. -/
theorem manifest_compare_ignores_paths_cex :
    get_exception [("a", "h")] [("b", "h")] = none ∧
      (("a", "h") : String × String) ≠ ("b", "h") := by
  decide

/-- C1 (amended): manifest comparison fails with the count-mismatch error
exactly when the cardinalities differ (that check is performed first);
otherwise it fails with the generic checksum-mismatch error (which names
no path) exactly when some position of the two equal-length manifests has
differing digests; positions differing only in `relativePath` never cause
a failure; if no digest differs it succeeds silently. -/
theorem manifest_compare_characterization (self target : Manifest) :
    get_exception self target =
      if target.length ≠ self.length then some ManifestError.countMismatch
      else if (self.zip target).any (fun pq => pq.1.2 != pq.2.2) then
        some ManifestError.checksumMismatch
      else none := by
  unfold get_exception
  by_cases h : target.length ≠ self.length
  · simp [h]
  · simp [h, digestLoop_eq]

/-- C6: evaluating `Manifest.prune_filenames` on the file
`/a/b/c/a/d.txt` under the root `/a/b`.  The prefix to strip is
`dirname('/a/b') + os.sep = '/a/'`, but Python `str.replace` removes every
occurrence, so the interior `/a/` is also deleted and the result is
`b/cd.txt` instead of the true relative path `b/c/a/d.txt`; the same
relative file under a different root `/o/b` prunes to `b/c/a/d.txt`, so
the two trees do not produce equal strings. -/
theorem prune_strips_every_occurrence_bug :
    dirname "/a/b" ++ "/" = "/a/" ∧
    prune_filenames ["/a/b/c/a/d.txt"] "/a/b" = ["b/cd.txt"] ∧
    prune_filenames ["/o/b/c/a/d.txt"] "/o/b" = ["b/c/a/d.txt"] ∧
    ("b/cd.txt" : String) ≠ "b/c/a/d.txt" := by
  decide

/-- C2: a byte-identical recursive copy whose manifests nevertheless fail
comparison.  The tree at `/a/b` holds `c/a/z.txt` (content `X`) and
`c/b.txt` (content `Y`); copying it to the fresh root `/o/b` preserves
every relative path and content, yet the source manifest's paths are
corrupted by the prune bug (`b/cz.txt`) while the copy's are not, the two
sorted manifests pair different files at the same index, and
`get_exception` reports a checksum mismatch.  Digests are modelled by the
identity stand-in. -/
theorem roundtrip_compare_fails_on_interior_prefix :
    Manifest.create id id "sha256"
        [("/a/b/c/a/z.txt", "X"), ("/a/b/c/b.txt", "Y")] "/a/b" [] =
      some [("b/c/b.txt", "Y"), ("b/cz.txt", "X")] ∧
    Manifest.create id id "sha256"
        (copy_files [("/a/b/c/a/z.txt", "X"), ("/a/b/c/b.txt", "Y")] "/a/b" "/o/b" "recursive")
        "/o/b" [] =
      some [("b/c/a/z.txt", "X"), ("b/c/b.txt", "Y")] ∧
    get_exception [("b/c/b.txt", "Y"), ("b/cz.txt", "X")]
        [("b/c/a/z.txt", "X"), ("b/c/b.txt", "Y")] =
      some ManifestError.checksumMismatch ∧
    readFile (copy_files [("/a/b/c/a/z.txt", "X"), ("/a/b/c/b.txt", "Y")] "/a/b" "/o/b" "recursive")
        "/o/b/c/a/z.txt" = some "X" ∧
    readFile (copy_files [("/a/b/c/a/z.txt", "X"), ("/a/b/c/b.txt", "Y")] "/a/b" "/o/b" "recursive")
        "/o/b/c/b.txt" = some "Y" := by
  decide

/-- C3: the in-place unbag of `innerDataFS`/`innerDataBag` (a bag whose
payload contains a subdirectory itself named `data`).  What the code
actually does, evaluated step by step: (1) the staging step
(`setup_tmp_dir`) flat-moves only the two top-level metadata files into
the temp dir and leaves the whole payload subtree at its original paths —
the `data` directory is never renamed; (2) the recursive copy then writes
the inner payload file back into the live `data` directory, so content
`X` ends up duplicated at both `/h/bag/data/data/x` and `/h/bag/data/x`
while `/h/bag/data/data/x` is excluded from verification; (3) the
operation aborts with a count-mismatch `ManifestError` instead of
completing.  This contradicts both halves of the claim (rename-aside
staging; no loss or duplication). -/
theorem inplace_unbag_inner_data_dir_bug :
    copy_files innerDataFS "/h/bag" "/h/bag/tmp0" "move" =
      [("/h/bag/tmp0/bagit.txt", "m1"), ("/h/bag/tmp0/manifest-sha256.txt", "m2"),
       ("/h/bag/data/y", "Y"), ("/h/bag/data/data/x", "X")] ∧
    unbag id id innerDataBag "" "tmp0" true innerDataFS =
      (UnbagOutcome.manifestError ManifestError.countMismatch,
       [("/h/bag/tmp0/bagit.txt", "m1"), ("/h/bag/tmp0/manifest-sha256.txt", "m2"),
        ("/h/bag/data/y", "Y"), ("/h/bag/data/data/x", "X"),
        ("/h/bag/y", "Y"), ("/h/bag/data/x", "X")]) := by
  decide

/-- C4: `fast_compare` fails with the aggregate-mismatch error exactly
when the aggregate (total byte size, file count) of the source root
differs from that of the destination root (the latter filtered by the
exclusion list), and — negative capability — on the concrete pair of
trees `/s` and `/d` holding one file each of equal size but different
content, it succeeds even though the contents differ. -/
theorem fast_compare_aggregate_iff_and_weakness :
    (∀ (fs : FS) (indir outdir : String) (exclude : List String),
        fast_compare fs indir outdir exclude = some ManifestError.aggregateMismatch ↔
          get_file_details fs indir [] ≠ get_file_details fs outdir exclude) ∧
    fast_compare [("/s/f", "AB"), ("/d/f", "CD")] "/s" "/d" [] = none ∧
    readFile [("/s/f", "AB"), ("/d/f", "CD")] "/s/f" ≠
      readFile [("/s/f", "AB"), ("/d/f", "CD")] "/d/f" := by
  refine ⟨?_, by decide, by decide⟩
  intro fs indir outdir exclude
  unfold fast_compare
  rcases h1 : get_file_details fs indir [] with ⟨isz, icnt⟩
  rcases h2 : get_file_details fs outdir exclude with ⟨osz, ocnt⟩
  by_cases hs : isz = osz <;> by_cases hc : icnt = ocnt <;>
    simp [hs, hc, Prod.ext_iff]

/-- C10: in `fast_compare`, the exclusion list is applied only to the
destination side — the source aggregates are always those of the full
source tree (`get_file_details fs indir []`), for every exclusion list.
Concretely: with a source tree holding `/s/a.txt` (2 bytes), an empty
destination and the exclusion list `["/s/a.txt"]` that matches the only
source file, the source side is still counted in full, so the comparison
fails; had the exclusion also been applied to the source, both sides
would have been `(0, 0)` and it would have succeeded. -/
theorem fast_compare_source_unexcluded :
    (∀ (fs : FS) (indir outdir : String) (exclude : List String),
        fast_compare fs indir outdir exclude = none ↔
          get_file_details fs indir [] = get_file_details fs outdir exclude) ∧
    fast_compare [("/s/a.txt", "AB")] "/s" "/d" ["/s/a.txt"] =
      some ManifestError.aggregateMismatch ∧
    get_file_details [("/s/a.txt", "AB")] "/s" ["/s/a.txt"] = (0, 0) ∧
    get_file_details [("/s/a.txt", "AB")] "/s" [] = (2, 1) := by
  refine ⟨?_, by decide, by decide, by decide⟩
  intro fs indir outdir exclude
  unfold fast_compare
  rcases h1 : get_file_details fs indir [] with ⟨isz, icnt⟩
  rcases h2 : get_file_details fs outdir exclude with ⟨osz, ocnt⟩
  by_cases hs : isz = osz <;> by_cases hc : icnt = ocnt <;>
    simp [hs, hc, Prod.ext_iff]

/-- C5 (counterexample): under the root `/r` with exclusion list `["a"]`,
the file `/r/cat.txt` is skipped by `Manifest.get_file_list` — its path
contains the letter `a` — although its absolute path neither equals any
entry of the exclusion list nor lies under one.  Exclusion is substring
containment, not path matching, so the claim's characterisation of the
skipped set is wrong. -/
theorem exclusion_substring_cex :
    get_file_list [("/r/cat.txt", "z")] "/r" ["a"] = [] ∧
    ("/r/cat.txt" : String) ∉ (["a"] : List String) ∧
    strPrefixOf "a/" "/r/cat.txt" = false := by
  decide

/-- C5 (amended): for a directory root, a path `p` appears in
`Manifest.get_file_list fs root exclude` exactly when `p` is a regular
file of the tree lying beneath `root` and no entry of the exclusion list
occurs in `p` as a substring; every other regular file beneath the root
is listed. -/
theorem get_file_list_membership (fs : FS) (root : String) (excl : List String)
    (p : String) (h : isDir fs root = true) :
    p ∈ get_file_list fs root excl ↔
      (strPrefixOf (root ++ "/") p = true ∧ (∃ c, (p, c) ∈ fs) ∧
        ∀ e ∈ excl, strSubstr e p = false) := by
  unfold get_file_list filesUnder
  rw [if_pos h]
  simp only [List.mem_filter, List.mem_map, List.mem_filter, Bool.not_eq_true',
    List.any_eq_false, Bool.not_eq_true]
  constructor
  · rintro ⟨⟨f, ⟨hf, hpre⟩, rfl⟩, hex⟩
    exact ⟨hpre, ⟨f.2, hf⟩, hex⟩
  · rintro ⟨hpre, ⟨c, hc⟩, hex⟩
    exact ⟨⟨(p, c), ⟨hc, hpre⟩, rfl⟩, hex⟩

/-- C5 (witness): the amended characterisation applied to the concrete
one-file tree `/r/a` with an empty exclusion list. -/
theorem get_file_list_membership_witness :
    isDir [("/r/a", "x")] "/r" = true ∧
      ("/r/a" ∈ get_file_list [("/r/a", "x")] "/r" [] ↔
        (strPrefixOf ("/r" ++ "/") "/r/a" = true ∧
          (∃ c, ("/r/a", c) ∈ [("/r/a", "x")]) ∧
          ∀ e ∈ ([] : List String), strSubstr e "/r/a" = false)) :=
  ⟨by decide, get_file_list_membership [("/r/a", "x")] "/r" [] "/r/a" (by decide)⟩

/-- The tuple order restricted to its first component: sorted-by-tuple
implies sorted-by-relative-path. -/
theorem manifestLE_fst {x y : String × String} (h : manifestLE x y) :
    strLe x.1 y.1 = true := by
  unfold manifestLE at h
  by_cases he : x.1 = y.1
  · rw [he]
    exact lexLeCh_refl _
  · rwa [if_neg he] at h

/-- C7: `Manifest.get_manifest` (prune, hash, zip, sort) is invariant
under the order in which the tree's files are visited — any permutation
of the file list yields the identical manifest — and its result is sorted
by relative path (weakly, in code-point order).  Hashing is order-safe
because `pool.map` pairs each file with its own digest before the sort. -/
theorem manifest_order_invariant_and_sorted (hashf : String → String) (target : String)
    (files files' : List String) (h : files'.Perm files) :
    get_manifest (prune_filenames files' target) (files'.map hashf) =
      get_manifest (prune_filenames files target) (files.map hashf) ∧
    (get_manifest (prune_filenames files target) (files.map hashf)).Pairwise
      (fun a b => strLe a.1 b.1 = true) := by
  constructor
  · unfold get_manifest prune_filenames
    rw [List.zip_map', List.zip_map']
    exact sortManifest_perm_eq (h.map _)
  · exact (List.sorted_insertionSort manifestLE _).imp manifestLE_fst

/-- C7 (witness): the two visitation orders of the tree
`{/r/a, /r/b}` produce the same manifest, and that manifest is sorted by
relative path. -/
theorem manifest_order_invariant_witness :
    get_manifest (prune_filenames ["/r/b", "/r/a"] "/r") (["/r/b", "/r/a"].map id) =
      get_manifest (prune_filenames ["/r/a", "/r/b"] "/r") (["/r/a", "/r/b"].map id) ∧
    (get_manifest (prune_filenames ["/r/a", "/r/b"] "/r") (["/r/a", "/r/b"].map id)).Pairwise
      (fun a b => strLe a.1 b.1 = true) :=
  manifest_order_invariant_and_sorted id "/r" ["/r/a", "/r/b"] ["/r/b", "/r/a"]
    (List.Perm.swap "/r/a" "/r/b" [])

/-- C8: in the unbag pipeline the bag's internal consistency is checked
(by the external Packaging Library) before anything touches the
filesystem: whenever validation fails, `unbag` terminates with the
validation failure and returns the filesystem exactly as it received it —
no file has been created, moved or deleted (the only steps preceding
validation, `set_unbag_paths` and opening the bag, are pure/read-only in
the source as well). -/
theorem unbag_validation_failure_no_mutation (md5 sha256 : String → String) (b : Bag)
    (outdir tmpName : String) (inplace : Bool) (fs : FS) (h : b.valid = false) :
    unbag md5 sha256 b outdir tmpName inplace fs = (UnbagOutcome.validationFailed, fs) := by
  simp [unbag, h]

/-- C8 (witness): an internally invalid bag leaves the concrete
filesystem untouched. -/
theorem unbag_validation_failure_no_mutation_witness :
    unbag id id ⟨"/b", [], ["sha256"], false⟩ "" "" true [("/b/data/x", "X")] =
      (UnbagOutcome.validationFailed, [("/b/data/x", "X")]) :=
  unbag_validation_failure_no_mutation id id ⟨"/b", [], ["sha256"], false⟩ "" "" true
    [("/b/data/x", "X")] rfl

/-- C9: `Manifest.get_hash` yields a digest only for the algorithms
`'md5'` and `'sha256'`; any other identifier falls through both branches
and hits the unbound local variable (modelled as `none`).  The CLI check
`validate_opts` rejects exactly those other identifiers — but the
algorithm `BetterBag.__init__` takes from an opened bag's own manifest
(`bag.algorithms[0]`) is never passed through that check: unbagging an
internally valid bag recorded with `sha512` runs straight into the
hashing error. -/
theorem hash_algorithm_partiality :
    (∀ (md5 sha256 : String → String) (alg c : String),
        alg ≠ "md5" → alg ≠ "sha256" → get_hash md5 sha256 alg c = none) ∧
    (∀ (md5 sha256 : String → String) (c : String),
        get_hash md5 sha256 "md5" c = some (md5 c) ∧
        get_hash md5 sha256 "sha256" c = some (sha256 c)) ∧
    validateOptsAlg "sha512" = false ∧
    validateOptsAlg "sha256" = true ∧
    validateOptsAlg "md5" = true ∧
    (unbag id id ⟨"/h/bag", [("data/y", "Y")], ["sha512"], true⟩ "/o" "t" false
        [("/h/bag/data/y", "Y")]).1 = UnbagOutcome.hashError := by
  refine ⟨?_, ?_, by decide, by decide, by decide, by decide⟩
  · intro md5 sha256 alg c h1 h2
    simp [get_hash, h1, h2]
  · intro md5 sha256 c
    exact ⟨by simp [get_hash], by simp [get_hash]⟩

/-- C9 (witness): the partiality theorem applied at the concrete
algorithm `'sha512'`. -/
theorem hash_algorithm_partiality_witness :
    get_hash (fun c => c) (fun c => c) "sha512" "abc" = none :=
  hash_algorithm_partiality.1 (fun c => c) (fun c => c) "sha512" "abc"
    (by decide) (by decide)
